import Mathlib

/-!
Shallow embedding of the Fiat_AI news-watcher scripts.

Python strings are modelled as lists of characters (`List Char`); a string
literal `s` enters a statement as `s.data`.  Python sets of strings are
modelled as duplicate-free lists with decidable membership.  Wall-clock time
(`time.time()`) is modelled as a rational number of seconds.  Fallible code
returns `Except`/`Option`.
-/

/-- Python `str.strip()`: remove leading and trailing whitespace. -/
def pyStrip (cs : List Char) : List Char :=
  (((cs.dropWhile Char.isWhitespace).reverse).dropWhile Char.isWhitespace).reverse

/-- Python `sep.join(xs)`. -/
def pyJoin (sep : List Char) : List (List Char) → List Char
  | [] => []
  | [x] => x
  | x :: y :: rest => x ++ sep ++ pyJoin sep (y :: rest)

/-- Python `str.split()` with no argument: accumulate the current run of
non-whitespace characters (reversed in `acc`) and cut at whitespace. -/
def pySplitAux : List Char → List Char → List (List Char)
  | [], acc => if acc = [] then [] else [acc.reverse]
  | c :: cs, acc =>
    if c.isWhitespace then
      if acc = [] then pySplitAux cs [] else acc.reverse :: pySplitAux cs []
    else pySplitAux cs (c :: acc)

/-- Python `str.split()` with no argument: maximal runs of non-whitespace. -/
def pySplit (s : List Char) : List (List Char) :=
  pySplitAux s []

/-!
## FLYBOTY.py: browser-tab headline watcher

`parse_headlines_from_html` walks the `a.newsTitleLink` elements of the page
in document order; the snapshot is modelled as that document-ordered list of
link texts.  The poll loop keeps a `seen_headlines` set loaded from
`flylines.csv` at startup.
-/

/-- FLYBOTY.parse_headlines_from_html: for each link in document order, take
its stripped text and keep it when nonempty. -/
def parse_headlines_from_html (links : List (List Char)) : List (List Char) :=
  links.foldl (fun headlines link =>
    let text := pyStrip link
    if text ≠ [] then headlines ++ [text] else headlines) []

/-- Python `set.add` on a set modelled as a list: insert when absent. -/
def addSeen (seen : List (List Char)) (h : List Char) : List (List Char) :=
  if h ∈ seen then seen else h :: seen

/-- FLYBOTY.load_existing_headlines: each CSV row with at least two fields
contributes its second field (`row[1]`) to the seen set. -/
def load_existing_headlines (rows : List (List (List Char))) : List (List Char) :=
  rows.foldl (fun existing row =>
    match row with
    | _ :: headline :: _ => addSeen existing headline
    | _ => existing) []

/-- One poll-cycle body of FLYBOTY.main (steps 4 and the emission loop):
`new_items = [h for h in headlines if h not in seen_headlines]` is computed
against the pre-cycle seen set, then every element of `new_items` is added to
the set and written out.  Returns (updated seen set, emitted items in order). -/
def flyCycle (seen : List (List Char)) (headlines : List (List Char)) :
    List (List Char) × List (List Char) :=
  let new_items := headlines.filter (fun h => decide (h ∉ seen))
  (new_items.foldl addSeen seen, new_items)

/-- A whole watcher run over a sequence of snapshots: the per-snapshot batches
of emitted items. -/
def flyRunBatches (seen : List (List Char)) : List (List (List Char)) → List (List (List Char))
  | [] => []
  | s :: rest => (flyCycle seen s).2 :: flyRunBatches (flyCycle seen s).1 rest

/-- The concatenated emission stream of a run. -/
def flyRunEmissions (seen : List (List Char)) (snaps : List (List (List Char))) :
    List (List Char) :=
  (flyRunBatches seen snaps).flatten

/-!
## Newsfeeder.py: FIATFEED window watcher (diff-based)
-/

/-- Python `list(dict.fromkeys(new_lines))`: drop duplicates keeping first
occurrences in order. -/
def dedupPreservingOrder (lines : List (List Char)) : List (List Char) :=
  lines.foldl (fun acc l => if l ∈ acc then acc else acc ++ [l]) []

/-- One iteration of Newsfeeder.monitor_fiatfeed_window's polling loop, for a
retrieved `current_text`.  The ndiff-based extraction of added lines is the
parameter `diffNewLines` (difflib is an external library); the loop only runs
it when `current_text` is truthy and differs from `last_text`.  Returns the new
`last_text` and the lines handed to the publisher. -/
def nfStep (diffNewLines : List Char → List Char → List (List Char))
    (last_text current_text : List Char) : List Char × List (List Char) :=
  if current_text ≠ [] ∧ current_text ≠ last_text then
    (current_text, dedupPreservingOrder (diffNewLines last_text current_text))
  else (last_text, [])

/-!
## headline_aggregator.py
-/

structure HeadlineAggregator where
  flush_interval : ℚ
  buffer : List (List Char)
  last_line_time : ℚ

/-- Default of `HeadlineAggregator.__init__(self, flush_interval=5)`. -/
def flushIntervalDefault : ℚ := 5

/-- HeadlineAggregator.add_line: append and stamp the time of the last add. -/
def HeadlineAggregator.add_line (a : HeadlineAggregator) (line : List Char) (now : ℚ) :
    HeadlineAggregator :=
  { a with buffer := a.buffer ++ [line], last_line_time := now }

/-- HeadlineAggregator.should_flush: `False` on an empty buffer, else whether
strictly more than `flush_interval` seconds passed since the last add. -/
def HeadlineAggregator.should_flush (a : HeadlineAggregator) (now : ℚ) : Bool :=
  if a.buffer = [] then false
  else decide (now - a.last_line_time > a.flush_interval)

/-- HeadlineAggregator.flush: newline-join the buffer and clear it. -/
def HeadlineAggregator.flush (a : HeadlineAggregator) : List Char × HeadlineAggregator :=
  (pyJoin ['\n'] a.buffer, { a with buffer := [] })

/-!
## usage_tracker.py

The ledger file on disk is modelled by `FileState`: absent, present but not
parseable by `json.load`, or a parsed list of timestamps.
-/

inductive FileState where
  | missing
  | corrupt
  | stored (data : List ℚ)
deriving DecidableEq

structure UsageTracker where
  max_attempts : ℕ
  time_window : ℚ
  attempts : List ℚ
  usage_file : FileState

/-- UsageTracker.load_usage: a missing file yields an empty deque; an existing
file is fed to `json.load`, whose parse failure propagates as an exception. -/
def load_usage : FileState → Except Unit (List ℚ)
  | FileState.missing => Except.ok []
  | FileState.corrupt => Except.error ()
  | FileState.stored data => Except.ok data

/-- UsageTracker.prune: pop timestamps from the front while strictly older
than `time_window`. -/
def pruneAttempts (time_window now : ℚ) : List ℚ → List ℚ
  | [] => []
  | t :: ts => if now - t > time_window then pruneAttempts time_window now ts else t :: ts

/-- UsageTracker.__init__: load the ledger (propagating any parse error), then
prune immediately. -/
def UsageTracker.init (file : FileState) (max_attempts : ℕ) (time_window now : ℚ) :
    Except Unit UsageTracker :=
  match load_usage file with
  | Except.error e => Except.error e
  | Except.ok data =>
      Except.ok ⟨max_attempts, time_window, pruneAttempts time_window now data, file⟩

/-- UsageTracker.can_post: prune, then compare the remaining count against
`max_attempts`.  The file is not touched. -/
def UsageTracker.can_post (u : UsageTracker) (now : ℚ) : UsageTracker × Bool :=
  let pruned := pruneAttempts u.time_window now u.attempts
  ({ u with attempts := pruned }, decide (pruned.length < u.max_attempts))

/-- UsageTracker.record_post: append the current time and rewrite the file. -/
def UsageTracker.record_post (u : UsageTracker) (now : ℚ) : UsageTracker :=
  { u with attempts := u.attempts ++ [now],
           usage_file := FileState.stored (u.attempts ++ [now]) }

/-- n repeated `can_post` calls at a fixed current time (decision discarded). -/
def canPostIter (u : UsageTracker) (now : ℚ) : ℕ → UsageTracker
  | 0 => u
  | n + 1 => ((canPostIter u now n).can_post now).1

/-!
## publisher_v2.py: MultiCSVHandler
-/

/-- Per-watched-file state of MultiCSVHandler: stored read offset and the set
of cleaned lines already posted. -/
structure CSVFileState where
  offset : ℕ
  posted : List (List Char)
deriving DecidableEq

/-- Match exactly n decimal digits, returning the remainder. -/
def matchDigits : ℕ → List Char → Option (List Char)
  | 0, cs => some cs
  | _ + 1, [] => none
  | n + 1, c :: cs => if c.isDigit then matchDigits n cs else none

/-- Match one expected character. -/
def matchChar (ch : Char) : List Char → Option (List Char)
  | [] => none
  | c :: cs => if c = ch then some cs else none

/-- Match the regex class `[T\s]`. -/
def matchSep : List Char → Option (List Char)
  | [] => none
  | c :: cs => if c = 'T' ∨ c.isWhitespace then some cs else none

/-- Match the regex tail `(?:\.\d+)?,`: an optional greedy fraction, then the
comma (the fallback without the group also needs the comma and so also fails
on a bare dot). -/
def matchFracComma : List Char → Option (List Char)
  | '.' :: c :: rest =>
      if c.isDigit then matchChar ',' ((c :: rest).dropWhile Char.isDigit)
      else matchChar ',' ('.' :: c :: rest)
  | cs => matchChar ',' cs

/-- The anchored regex of publisher_v2.process_new_lines,
`^\d{4}-\d{2}-\d{2}[T\s]\d{2}:\d{2}:\d{2}(?:\.\d+)?,\s*`: on a match, return
the rest of the line, i.e. the effect of `re.sub(pattern, '', line)`. -/
def matchTimestampPrefix (cs : List Char) : Option (List Char) :=
  (matchDigits 4 cs).bind (matchChar '-')
    |>.bind (matchDigits 2)
    |>.bind (matchChar '-')
    |>.bind (matchDigits 2)
    |>.bind matchSep
    |>.bind (matchDigits 2)
    |>.bind (matchChar ':')
    |>.bind (matchDigits 2)
    |>.bind (matchChar ':')
    |>.bind (matchDigits 2)
    |>.bind matchFracComma
    |>.map (List.dropWhile Char.isWhitespace)

/-- Line cleaning of MultiCSVHandler.process_new_lines: strip any leading CSV
timestamp field, trim, and for flylines.csv also drop a leading `"Fly "`. -/
def clean_line (file_name line : List Char) : List Char :=
  let cleaned := pyStrip (match matchTimestampPrefix line with
    | some rest => rest
    | none => line)
  if file_name = "flylines.csv".data ∧ decide (cleaned.take 4 = "Fly ".data) then
    pyStrip (cleaned.drop 4)
  else cleaned

/-- MultiCSVHandler.process_new_lines for one watched file, with the file's
current content supplied as `content` (its size is `content.length`).  On an
observed truncation (`new_offset < self.file_offsets[file_name]`) only the
local `current_offset` variable is zeroed while `self.posted_lines` is
cleared; `self.file_offsets` is reassigned only inside the read branch.
Returns the successor state and the cleaned lines sent onward (aggregator,
Discord, console) in order. -/
def process_new_lines (file_name content : List Char) (st : CSVFileState) :
    CSVFileState × List (List Char) :=
  let new_offset := content.length
  let current_offset := if new_offset < st.offset then 0 else st.offset
  let posted0 := if new_offset < st.offset then [] else st.posted
  if current_offset < new_offset then
    let r := (List.splitOn '\n' (content.drop current_offset)).foldl
      (fun acc line =>
        if pyStrip line ≠ [] then
          let cleaned := clean_line file_name line
          if cleaned ∈ acc.1 then acc else (acc.1 ++ [cleaned], acc.2 ++ [cleaned])
        else acc) (posted0, [])
    (⟨new_offset, r.1⟩, r.2)
  else
    (⟨st.offset, posted0⟩, [])

/-!
## Heading-heuristic extraction strategy

Modelled from the spec: this strategy is one of the watcher rewrites the spec
records, and its code is not among the files under version control here, so
the definitions below follow the spec's words: scan for `\d\d:\d\d:\d\d`
timestamps, cut the text into segments at the timestamp match starts (the
final segment runs to end of input; with no timestamp the strategy yields no
candidates), trim each segment, drop those with fewer than `min_words`
whitespace-separated words, and then keep a candidate when the fraction of
its alphabetic words that are fully upper-case is at least the configured
threshold — a rational `num/den`, default 3/4 = 0.75 — or when all of its
alphabetic characters are upper-case.
-/

/-- Modelled from the spec: does the list start with `\d\d:\d\d:\d\d`? -/
def timestampHere : List Char → Bool
  | d1 :: d2 :: c1 :: d3 :: d4 :: c2 :: d5 :: d6 :: _ =>
      d1.isDigit && d2.isDigit && (c1 = ':') && d3.isDigit && d4.isDigit &&
        (c2 = ':') && d5.isDigit && d6.isDigit
  | _ => false

/-- Modelled from the spec: start indices of the left-to-right,
non-overlapping timestamp matches, scanning from index `i`; the fuel (first
argument) bounds the number of scan steps, each of which consumes at least one
character. -/
def findTimestampStartsAux : ℕ → List Char → ℕ → List ℕ
  | 0, _, _ => []
  | fuel + 1, cs, i =>
    match cs with
    | [] => []
    | c :: rest =>
      if timestampHere (c :: rest) then
        i :: findTimestampStartsAux fuel (rest.drop 7) (i + 8)
      else findTimestampStartsAux fuel rest (i + 1)

/-- Modelled from the spec: start indices of the left-to-right,
non-overlapping timestamp matches, scanning from index `i`. -/
def findTimestampStarts (cs : List Char) (i : ℕ) : List ℕ :=
  findTimestampStartsAux cs.length cs i

/-- Modelled from the spec: the segment starting at each match start and
running to the next match start, the last one to end of input. -/
def segmentsFromStarts (cs : List Char) : List ℕ → List (List Char)
  | [] => []
  | [s] => [cs.drop s]
  | s1 :: s2 :: rest => (cs.drop s1).take (s2 - s1) :: segmentsFromStarts cs (s2 :: rest)

/-- Modelled from the spec: the timestamp-delimited strategy — segment at
timestamps, trim, and drop candidates with fewer than `min_words` words. -/
def timestampDelimitedExtract (min_words : ℕ) (text : List Char) : List (List Char) :=
  ((segmentsFromStarts text (findTimestampStarts text 0)).map pyStrip).filter
    (fun seg => decide (min_words ≤ (pySplit seg).length))

/-- Modelled from the spec: the alphabetic words of a candidate (words
containing at least one alphabetic character). -/
def alphaWords (s : List Char) : List (List Char) :=
  (pySplit s).filter (fun w => w.any Char.isAlpha)

/-- Modelled from the spec: a word is fully upper-case when every alphabetic
character in it is upper-case. -/
def wordAllUpper (w : List Char) : Bool :=
  w.all (fun ch => !ch.isAlpha || ch.isUpper)

/-- Modelled from the spec: all alphabetic characters of the candidate are
upper-case. -/
def allAlphaUpper (s : List Char) : Bool :=
  s.all (fun ch => !ch.isAlpha || ch.isUpper)

/-- Modelled from the spec: the "looks like a heading" predicate — the
fraction of alphabetic words that are fully upper-case reaches the threshold
`num/den`, or every alphabetic character is upper-case. -/
def looks_like_heading (num den : ℕ) (s : List Char) : Bool :=
  let aw := alphaWords s
  (decide (aw ≠ []) && decide (num * aw.length ≤ (aw.countP wordAllUpper) * den))
    || allAlphaUpper s

/-- Modelled from the spec: the heading-heuristic strategy — the
timestamp-delimited strategy further filtered by the heading predicate. -/
def headingHeuristicExtract (min_words num den : ℕ) (text : List Char) :
    List (List Char) :=
  (timestampDelimitedExtract min_words text).filter (looks_like_heading num den)

/-!
## Helper lemmas
-/

theorem mem_addSeen {seen : List (List Char)} {h a : List Char} :
    a ∈ addSeen seen h ↔ a = h ∨ a ∈ seen := by
  simp only [addSeen]
  split
  · next hmem => exact ⟨Or.inr, fun hc => hc.elim (fun e => e ▸ hmem) id⟩
  · next => exact List.mem_cons

theorem mem_foldl_addSeen {l seen : List (List Char)} {a : List Char} :
    a ∈ l.foldl addSeen seen ↔ a ∈ seen ∨ a ∈ l := by
  induction l generalizing seen with
  | nil => simp
  | cons x xs ih =>
    simp only [List.foldl_cons, ih, mem_addSeen, List.mem_cons]
    tauto

theorem flyCycle_seen_mono {seen hs : List (List Char)} {a : List Char} (ha : a ∈ seen) :
    a ∈ (flyCycle seen hs).1 := by
  simp only [flyCycle, mem_foldl_addSeen]
  exact Or.inl ha

theorem flyCycle_snapshot_subset {seen hs : List (List Char)} {a : List Char}
    (ha : a ∈ hs) : a ∈ (flyCycle seen hs).1 := by
  by_cases hmem : a ∈ seen
  · exact flyCycle_seen_mono hmem
  · simp only [flyCycle, mem_foldl_addSeen, List.mem_filter, decide_eq_true_eq]
    exact Or.inr ⟨ha, hmem⟩

theorem flyCycle_emitted_subset_seen {seen hs : List (List Char)} {a : List Char}
    (ha : a ∈ (flyCycle seen hs).2) : a ∈ (flyCycle seen hs).1 := by
  simp only [flyCycle, mem_foldl_addSeen]
  simp only [flyCycle] at ha
  exact Or.inr ha

theorem flyCycle_seen_not_emitted {seen hs : List (List Char)} {a : List Char}
    (ha : a ∈ seen) : a ∉ (flyCycle seen hs).2 := by
  simp only [flyCycle, List.mem_filter, decide_eq_true_eq]
  rintro ⟨-, hns⟩
  exact hns ha

theorem flyCycle_no_emit_of_subset {seen hs : List (List Char)}
    (h : ∀ a ∈ hs, a ∈ seen) : (flyCycle seen hs).2 = [] := by
  simp only [flyCycle, List.filter_eq_nil_iff, decide_eq_true_eq, not_not]
  exact h

theorem seen_not_in_batches {seen : List (List Char)} {snaps : List (List (List Char))}
    {a : List Char} (ha : a ∈ seen) {b : List (List Char)}
    (hb : b ∈ flyRunBatches seen snaps) : a ∉ b := by
  induction snaps generalizing seen with
  | nil => simp [flyRunBatches] at hb
  | cons s rest ih =>
    simp only [flyRunBatches, List.mem_cons] at hb
    rcases hb with rfl | hb
    · exact flyCycle_seen_not_emitted ha
    · exact ih (flyCycle_seen_mono ha) hb

theorem seen_not_in_batches_getD {seen : List (List Char)}
    {snaps : List (List (List Char))} {a : List Char} (ha : a ∈ seen) (i : ℕ) :
    a ∉ (flyRunBatches seen snaps).getD i [] := by
  intro hmem
  by_cases hlt : i < (flyRunBatches seen snaps).length
  · have hb : (flyRunBatches seen snaps).getD i [] ∈ flyRunBatches seen snaps := by
      rw [List.getD_eq_getElem _ _ hlt]
      exact List.getElem_mem hlt
    exact seen_not_in_batches ha hb hmem
  · rw [List.getD_eq_default _ _ (le_of_not_lt hlt)] at hmem
    simp at hmem

/-!
## Claims
-/

/-- C1 counterexample: a headline duplicated within one snapshot is emitted once
per occurrence, because FLYBOTY.main computes `new_items` against the pre-cycle
seen set and only then adds while writing: over the run on the single snapshot
`["A", "A"]`, "A" appears twice in the emitted stream, not at most once. -/
theorem no_duplicate_emission_counterexample :
    ¬ (flyRunEmissions [] [["A".data, "A".data]]).count "A".data ≤ 1 := by decide

/-- C1 (amended): each distinct candidate string is emitted during at most one
snapshot's processing — if it occurs in the emitted batches of snapshots `i` and
`j` of a run, then `i = j`; once a string has entered the seen set it is never
re-emitted by a later snapshot.  Within that single batch, however, the string
is emitted once per occurrence in the snapshot, so a candidate duplicated inside
one snapshot can be emitted more than once. -/
theorem no_cross_snapshot_reemission (seen : List (List Char))
    (snaps : List (List (List Char))) (h : List Char) (i j : ℕ)
    (hi : h ∈ (flyRunBatches seen snaps).getD i [])
    (hj : h ∈ (flyRunBatches seen snaps).getD j []) : i = j := by
  induction snaps generalizing seen i j with
  | nil => simp [flyRunBatches] at hi
  | cons s rest ih =>
    cases i with
    | zero =>
      cases j with
      | zero => rfl
      | succ j' =>
        exfalso
        have hseen : h ∈ (flyCycle seen s).1 :=
          flyCycle_emitted_subset_seen (by simpa [flyRunBatches] using hi)
        exact seen_not_in_batches_getD hseen j' (by simpa [flyRunBatches] using hj)
    | succ i' =>
      cases j with
      | zero =>
        exfalso
        have hseen : h ∈ (flyCycle seen s).1 :=
          flyCycle_emitted_subset_seen (by simpa [flyRunBatches] using hj)
        exact seen_not_in_batches_getD hseen i' (by simpa [flyRunBatches] using hi)
      | succ j' =>
        have := ih (flyCycle seen s).1 i' j'
          (by simpa [flyRunBatches] using hi) (by simpa [flyRunBatches] using hj)
        omega

/-- C1 (amended) witness at a concrete run. -/
theorem no_cross_snapshot_reemission_witness :
    "A".data ∈ (flyRunBatches [] [["A".data]]).getD 0 [] ∧ (0 : ℕ) = 0 :=
  ⟨by decide,
    no_cross_snapshot_reemission [] [["A".data]] "A".data 0 0 (by decide) (by decide)⟩

/-- C2: processing the identical snapshot again yields zero newly emitted
items — in FLYBOTY every headline of the first pass is in the seen set
afterwards, so the second pass's `new_items` filter is empty; in Newsfeeder the
`current_text != last_text` guard fails on an identical text, so nothing is
diffed or published. -/
theorem repoll_idempotent :
    (∀ seen s : List (List Char), (flyCycle (flyCycle seen s).1 s).2 = []) ∧
    (∀ (diffNewLines : List Char → List Char → List (List Char)) (t : List Char),
      nfStep diffNewLines t t = (t, [])) := by
  constructor
  · intro seen s
    exact flyCycle_no_emit_of_subset (fun a ha => flyCycle_snapshot_subset ha)
  · intro f t
    simp [nfStep]

theorem parse_foldl_aux (links : List (List Char)) (acc : List (List Char)) :
    links.foldl (fun headlines link =>
      let text := pyStrip link
      if text ≠ [] then headlines ++ [text] else headlines) acc
    = acc ++ (links.map pyStrip).filter (fun t => decide (t ≠ [])) := by
  induction links generalizing acc with
  | nil => simp
  | cons x xs ih =>
    simp only [List.foldl_cons, List.map_cons, List.filter_cons]
    by_cases hx : pyStrip x ≠ []
    · rw [if_pos hx, ih]
      simp [hx]
    · rw [if_neg hx, ih]
      simp [hx]

theorem parse_headlines_eq (links : List (List Char)) :
    parse_headlines_from_html links
      = (links.map pyStrip).filter (fun t => decide (t ≠ [])) := by
  unfold parse_headlines_from_html
  simpa using parse_foldl_aux links []

theorem pair_getD_sublist {α : Type} (l : List α) (d : α) (i j : ℕ)
    (hij : i < j) (hj : j < l.length) :
    ([l.getD i d, l.getD j d]).Sublist l := by
  induction l generalizing i j with
  | nil => simp at hj
  | cons x xs ih =>
    cases i with
    | zero =>
      cases j with
      | zero => omega
      | succ j' =>
        simp only [List.getD_cons_zero, List.getD_cons_succ]
        refine List.Sublist.cons₂ x ?_
        rw [List.singleton_sublist]
        have hj' : j' < xs.length := by simpa using hj
        rw [List.getD_eq_getElem _ _ hj']
        exact List.getElem_mem hj'
    | succ i' =>
      cases j with
      | zero => omega
      | succ j' =>
        simp only [List.getD_cons_succ]
        exact List.Sublist.cons x (ih i' j' (by omega) (by simpa using hj))

/-- C3: order preservation.  First, the extractor yields candidates in document
order: its output is a sublist of the document-ordered stripped link texts.
Second, when two candidates at positions `i < j` of one snapshot's extracted
sequence are both novel, the emission batch of that cycle contains them in that
order (the two-element list is a sublist of the batch). -/
theorem order_preservation :
    (∀ links : List (List Char),
        (parse_headlines_from_html links).Sublist (links.map pyStrip)) ∧
    (∀ (seen hs : List (List Char)) (i j : ℕ), i < j → j < hs.length →
        hs.getD i [] ∉ seen → hs.getD j [] ∉ seen →
        ([hs.getD i [], hs.getD j []]).Sublist (flyCycle seen hs).2) := by
  constructor
  · intro links
    rw [parse_headlines_eq]
    exact List.filter_sublist _
  · intro seen hs i j hij hj hA hB
    have hsub : ([hs.getD i [], hs.getD j []]).Sublist hs :=
      pair_getD_sublist hs [] i j hij hj
    have hfil := hsub.filter (fun h => decide (h ∉ seen))
    have heq : List.filter (fun h => decide (h ∉ seen)) [hs.getD i [], hs.getD j []]
        = [hs.getD i [], hs.getD j []] := by
      rw [List.filter_cons, if_pos (decide_eq_true hA), List.filter_cons,
        if_pos (decide_eq_true hB), List.filter_nil]
    rw [heq] at hfil
    simpa [flyCycle] using hfil

/-- C3 witness: snapshot ["A", "B"] with an empty seen set. -/
theorem order_preservation_witness :
    (0 : ℕ) < 1 ∧ 1 < (["A".data, "B".data] : List (List Char)).length ∧
    (["A".data, "B".data] : List (List Char)).getD 0 [] ∉ ([] : List (List Char)) ∧
    (["A".data, "B".data] : List (List Char)).getD 1 [] ∉ ([] : List (List Char)) ∧
    ([(["A".data, "B".data] : List (List Char)).getD 0 [],
      (["A".data, "B".data] : List (List Char)).getD 1 []]).Sublist
        (flyCycle [] ["A".data, "B".data]).2 :=
  ⟨by decide, by decide, by decide, by decide,
    order_preservation.2 [] ["A".data, "B".data] 0 1
      (by decide) (by decide) (by decide) (by decide)⟩

/-- C4: restart priming.  A headline recorded in the persisted emission log
(any CSV row with at least two fields, the headline in the second) is in the
seen set produced by load_existing_headlines, and a run primed with that seen
set never emits it again, whatever snapshots arrive. -/
theorem restart_priming (rows : List (List (List Char)))
    (snaps : List (List (List Char))) (h : List Char)
    (hmem : h ∈ load_existing_headlines rows) :
    h ∉ flyRunEmissions (load_existing_headlines rows) snaps := by
  intro hc
  simp only [flyRunEmissions, List.mem_flatten] at hc
  obtain ⟨b, hb, hhb⟩ := hc
  exact seen_not_in_batches hmem hb hhb

/-- C4 witness: the spec's "HELLO WORLD HEADLINE" scenario. -/
theorem restart_priming_witness :
    "HELLO WORLD HEADLINE".data ∈ load_existing_headlines
        [["2025-01-01T00:00:00".data, "HELLO WORLD HEADLINE".data]] ∧
    "HELLO WORLD HEADLINE".data ∉ flyRunEmissions
        (load_existing_headlines
          [["2025-01-01T00:00:00".data, "HELLO WORLD HEADLINE".data]])
        [["HELLO WORLD HEADLINE".data]] :=
  ⟨by decide,
    restart_priming [["2025-01-01T00:00:00".data, "HELLO WORLD HEADLINE".data]]
      [["HELLO WORLD HEADLINE".data]] "HELLO WORLD HEADLINE".data (by decide)⟩

/-- C5: debounce contract of HeadlineAggregator.  should_flush is true exactly
when the buffer is non-empty and the time since the last add strictly exceeds
flush_interval; and in the spec's scenario (items at t=0 and t=2, quiet period
the default 5), should_flush is false at t=4, true at t=8, and flush returns
the two items newline-joined in arrival order and empties the buffer. -/
theorem aggregator_debounce :
    (∀ (a : HeadlineAggregator) (now : ℚ),
        a.should_flush now = true ↔
          (a.buffer ≠ [] ∧ now - a.last_line_time > a.flush_interval)) ∧
    (((HeadlineAggregator.mk flushIntervalDefault [] 0).add_line "item1".data 0
        |>.add_line "item2".data 2).should_flush 4 = false ∧
     ((HeadlineAggregator.mk flushIntervalDefault [] 0).add_line "item1".data 0
        |>.add_line "item2".data 2).should_flush 8 = true ∧
     (((HeadlineAggregator.mk flushIntervalDefault [] 0).add_line "item1".data 0
        |>.add_line "item2".data 2).flush).1 = "item1\nitem2".data ∧
     (((HeadlineAggregator.mk flushIntervalDefault [] 0).add_line "item1".data 0
        |>.add_line "item2".data 2).flush).2.buffer = []) := by
  refine ⟨?_, ?_, ?_, ?_, ?_⟩
  · intro a now
    unfold HeadlineAggregator.should_flush
    split
    · next hb => simp [hb]
    · next hb => simp [hb, decide_eq_true_eq]
  · norm_num [HeadlineAggregator.should_flush, HeadlineAggregator.add_line,
      flushIntervalDefault]
  · norm_num [HeadlineAggregator.should_flush, HeadlineAggregator.add_line,
      flushIntervalDefault]
    decide
  · decide
  · decide

theorem prune_eq_filter (tw now : ℚ) (l : List ℚ) (hs : l.Pairwise (· ≤ ·)) :
    pruneAttempts tw now l = l.filter (fun t => decide (now - t ≤ tw)) := by
  induction l with
  | nil => rfl
  | cons t ts ih =>
    rcases List.pairwise_cons.mp hs with ⟨hhead, htail⟩
    by_cases hc : now - t > tw
    · rw [pruneAttempts, if_pos hc, ih htail, List.filter_cons,
        if_neg (by simpa using not_le.mpr hc)]
    · rw [pruneAttempts, if_neg hc, List.filter_cons,
        if_pos (decide_eq_true (not_lt.mp hc))]
      rw [List.filter_eq_self.mpr]
      intro a ha
      have h1 : t ≤ a := hhead a ha
      have h2 : now - a ≤ tw := by
        have := not_lt.mp hc
        linarith
      exact decide_eq_true h2

/-- C6: rolling-window rate-limit decision.  For a chronologically ordered
ledger, can_post prunes exactly the entries strictly older than time_window and
answers whether the remaining count is strictly below max_attempts; and in the
spec's scenario (max_attempts=2, window=10, posts recorded at t=0 and t=1),
can_post is false at t=2 and true at t=11. -/
theorem rate_limit_decision :
    (∀ (u : UsageTracker) (now : ℚ), u.attempts.Pairwise (· ≤ ·) →
        ((u.can_post now).2 = true ↔
          (u.attempts.filter (fun t => decide (now - t ≤ u.time_window))).length
            < u.max_attempts)) ∧
    ((((UsageTracker.mk 2 10 [] FileState.missing).record_post 0).record_post 1).can_post
        2).2 = false ∧
    ((((UsageTracker.mk 2 10 [] FileState.missing).record_post 0).record_post 1).can_post
        11).2 = true := by
  refine ⟨?_, ?_, ?_⟩
  · intro u now hp
    unfold UsageTracker.can_post
    simp only [decide_eq_true_eq]
    rw [prune_eq_filter _ _ _ hp]
  · norm_num [UsageTracker.can_post, UsageTracker.record_post, pruneAttempts]
  · norm_num [UsageTracker.can_post, UsageTracker.record_post, pruneAttempts]

/-- C6 witness: the general part applied to the ledger [0, 1] at t=11. -/
theorem rate_limit_decision_witness :
    ([(0 : ℚ), 1].Pairwise (· ≤ ·)) ∧
    (((UsageTracker.mk 2 10 [0, 1] FileState.missing).can_post 11).2 = true ↔
      (([(0 : ℚ), 1]).filter (fun t => decide ((11 : ℚ) - t ≤ 10))).length < 2) :=
  ⟨by norm_num [List.pairwise_cons],
    rate_limit_decision.1 (UsageTracker.mk 2 10 [0, 1] FileState.missing) 11
      (by norm_num [List.pairwise_cons])⟩

/-- C7 counterexample: with a corrupt (unparseable) ledger file, the
UsageTracker constructor does not succeed — json.load's parse error propagates
out of load_usage and __init__, so no tracker with an empty ledger (nor any
tracker at all) is produced. -/
theorem ledger_init_counterexample :
    ¬ ∃ u : UsageTracker, UsageTracker.init FileState.corrupt 100 86400 0
        = Except.ok u := by
  rintro ⟨u, hu⟩
  simp [UsageTracker.init, load_usage] at hu

/-- C7 (amended): only a missing ledger file fails open — construction then
succeeds with an empty ledger; a corrupt (unparseable) file makes construction
raise the parse error instead; a parseable file loads and is pruned. -/
theorem ledger_init_amended :
    (∀ (m : ℕ) (tw now : ℚ),
        UsageTracker.init FileState.missing m tw now
          = Except.ok (UsageTracker.mk m tw [] FileState.missing)) ∧
    (∀ (m : ℕ) (tw now : ℚ),
        UsageTracker.init FileState.corrupt m tw now = Except.error ()) ∧
    (∀ (m : ℕ) (tw now : ℚ) (data : List ℚ),
        UsageTracker.init (FileState.stored data) m tw now
          = Except.ok
              (UsageTracker.mk m tw (pruneAttempts tw now data) (FileState.stored data))) :=
  ⟨fun _ _ _ => rfl, fun _ _ _ => rfl, fun _ _ _ _ => rfl⟩

theorem prune_idempotent (tw now : ℚ) (l : List ℚ) :
    pruneAttempts tw now (pruneAttempts tw now l) = pruneAttempts tw now l := by
  induction l with
  | nil => rfl
  | cons t ts ih =>
    by_cases hc : now - t > tw
    · rw [pruneAttempts, if_pos hc, ih]
    · rw [pruneAttempts, if_neg hc, pruneAttempts, if_neg hc]

theorem canPostIter_succ_eq (u : UsageTracker) (now : ℚ) (n : ℕ) :
    canPostIter u now (n + 1) = (u.can_post now).1 := by
  induction n with
  | zero => rfl
  | succ k ih =>
    show ((canPostIter u now (k + 1)).can_post now).1 = _
    rw [ih]
    simp [UsageTracker.can_post, prune_idempotent]

/-- C9: can_post has no persistent side effect.  Any number of repeated
can_post calls leaves the ledger file untouched, and at a fixed current time
the decision after n prior calls equals the first decision; record_post, by
contrast, is what rewrites the file. -/
theorem can_post_no_side_effect (u : UsageTracker) (now : ℚ) (n : ℕ) :
    (canPostIter u now n).usage_file = u.usage_file ∧
    ((canPostIter u now n).can_post now).2 = (u.can_post now).2 ∧
    (u.record_post now).usage_file = FileState.stored (u.attempts ++ [now]) := by
  refine ⟨?_, ?_, rfl⟩
  · cases n with
    | zero => rfl
    | succ k =>
      rw [canPostIter_succ_eq]
      simp [UsageTracker.can_post]
  · cases n with
    | zero => rfl
    | succ k =>
      rw [canPostIter_succ_eq]
      simp [UsageTracker.can_post, prune_idempotent]

set_option maxRecDepth 8192 in
/-- C10 counterexample: the truncation branch of process_new_lines zeroes only
the local `current_offset` variable, never `self.file_offsets[file_name]`.
With a stored offset of 100 and posted set {"X"}, observing the file truncated
to size 0 leaves the stored offset at 100 (not 0); when the file then regrows
to 120 bytes with the line "X" reappearing at its start, reading resumes at
the stale offset 100, so the previously posted "X" is skipped and never posted
or aggregated again. -/
theorem truncation_reset_counterexample :
    (process_new_lines "headlines.csv".data [] (CSVFileState.mk 100 ["X".data])).1.offset
      ≠ 0 ∧
    "X".data ∉ (process_new_lines "headlines.csv".data
        ("X\n".data ++ List.replicate 118 'a')
        (process_new_lines "headlines.csv".data [] (CSVFileState.mk 100 ["X".data])).1).2 := by
  exact ⟨by decide, by decide⟩

/-- C10 (amended): on an observed truncation (file size strictly below the
stored offset) process_new_lines clears the posted-lines set and reads from
position 0 — its emissions and resulting posted set equal those of a fresh
state with offset 0 and empty posted set, so lines reappearing in the observed
content are posted and aggregated again — but the stored offset is not reset
to 0: it becomes the new file size when the truncated file is non-empty and
keeps its stale value when the file is observed at size 0. -/
theorem truncation_resets_dedup_amended (file_name content : List Char)
    (st : CSVFileState) (htr : content.length < st.offset) :
    (process_new_lines file_name content st).2
      = (process_new_lines file_name content (CSVFileState.mk 0 [])).2 ∧
    (process_new_lines file_name content st).1.posted
      = (process_new_lines file_name content (CSVFileState.mk 0 [])).1.posted ∧
    (process_new_lines file_name content st).1.offset
      = (if 0 < content.length then content.length else st.offset) := by
  have h0 : ¬ content.length < (0 : ℕ) := Nat.not_lt_zero _
  by_cases hlen : 0 < content.length
  · simp only [process_new_lines, if_pos htr, if_neg h0, if_pos hlen]
    simp
  · simp only [process_new_lines, if_pos htr, if_neg h0, if_neg hlen]
    simp

/-- C10 (amended) witness: truncation from offset 100 to a 2-character file. -/
theorem truncation_resets_dedup_amended_witness :
    "X\n".data.length < (CSVFileState.mk 100 ["X".data]).offset ∧
    ((process_new_lines "headlines.csv".data "X\n".data (CSVFileState.mk 100 ["X".data])).2
        = (process_new_lines "headlines.csv".data "X\n".data (CSVFileState.mk 0 [])).2 ∧
     (process_new_lines "headlines.csv".data "X\n".data
          (CSVFileState.mk 100 ["X".data])).1.posted
        = (process_new_lines "headlines.csv".data "X\n".data (CSVFileState.mk 0 [])).1.posted ∧
     (process_new_lines "headlines.csv".data "X\n".data
          (CSVFileState.mk 100 ["X".data])).1.offset
        = (if 0 < "X\n".data.length then "X\n".data.length
            else (CSVFileState.mk 100 ["X".data]).offset)) :=
  ⟨by decide,
    truncation_resets_dedup_amended "headlines.csv".data "X\n".data
      (CSVFileState.mk 100 ["X".data]) (by decide)⟩

theorem ratio_ge_iff (num den upper total : ℕ) (hden : 0 < den) (htotal : 0 < total) :
    num * total ≤ upper * den ↔ (num : ℚ) / den ≤ (upper : ℚ) / total := by
  rw [div_le_div_iff₀ (by exact_mod_cast hden) (by exact_mod_cast htotal)]
  exact_mod_cast Iff.rfl

set_option maxRecDepth 8192 in
/-- C8: the heading-heuristic strategy accepts a timestamp-delimited candidate
iff the fraction of its alphabetic words that are fully upper-case meets or
exceeds the threshold num/den, or all its alphabetic characters are
upper-case; and on the spec's text with min_words=5 and threshold 3/4 = 0.75
the extractor returns exactly the first (all-caps) segment and discards the
second. -/
theorem heading_heuristic_filter :
    (∀ num den : ℕ, 0 < den → ∀ c : List Char,
        looks_like_heading num den c = true ↔
          ((alphaWords c ≠ [] ∧
              ((num : ℚ) / den ≤
                (((alphaWords c).countP wordAllUpper : ℚ) / (alphaWords c).length))) ∨
            allAlphaUpper c = true)) ∧
    headingHeuristicExtract 5 3 4
        "09:15:00 BREAKING MARKET ALERT HERE\n09:15:05 normal lowercase chatter".data
      = ["09:15:00 BREAKING MARKET ALERT HERE".data] := by
  constructor
  · intro num den hden c
    unfold looks_like_heading
    simp only [Bool.or_eq_true, Bool.and_eq_true, decide_eq_true_eq]
    constructor
    · rintro (⟨hne, hle⟩ | hall)
      · exact Or.inl ⟨hne,
          (ratio_ge_iff num den _ _ hden (List.length_pos.mpr hne)).mp hle⟩
      · exact Or.inr hall
    · rintro (⟨hne, hge⟩ | hall)
      · exact Or.inl ⟨hne,
          (ratio_ge_iff num den _ _ hden (List.length_pos.mpr hne)).mpr hge⟩
      · exact Or.inr hall
  · decide

/-- C8 witness: the acceptance characterization at threshold 3/4 on "AB CD". -/
theorem heading_heuristic_filter_witness :
    (0 : ℕ) < 4 ∧
    (looks_like_heading 3 4 "AB CD".data = true ↔
      ((alphaWords "AB CD".data ≠ [] ∧
          ((3 : ℚ) / 4 ≤
            (((alphaWords "AB CD".data).countP wordAllUpper : ℚ) /
              (alphaWords "AB CD".data).length))) ∨
        allAlphaUpper "AB CD".data = true)) :=
  ⟨by decide, heading_heuristic_filter.1 3 4 (by decide) "AB CD".data⟩
